import Mathlib

/-!
Verification development for the interactive Lean 4 proof-editing session
manager (`InteractiveLeanAgent` in
`nemo_skills/code_execution/lean4/interactive_agent.py`).

The Python class keeps, per session, a current document, derived compiler
messages, derived proof goals, a map of editable clauses, and a compilation
counter.  All of its text surgery is re-modelled here over `List Char`,
character for character: `str.split('\n')`, `str.find`, `str.replace`
(replace-all), `str.strip`, `str.startswith`, slicing, and the two regular
expressions the code uses (the `have ... := by ...` matcher and the
`[error]/[warning]/[info]` message extractor).  The external theorem prover
is treated as an opaque function producing a `VerifierResult`.
-/

namespace InteractiveLean

abbrev Chars := List Char

/-- Python `str.strip()`: drop whitespace from both ends. -/
def pyStrip (cs : Chars) : Chars :=
  ((cs.dropWhile Char.isWhitespace).reverse.dropWhile Char.isWhitespace).reverse

/-- Python `str.rstrip()`: drop trailing whitespace. -/
def pyRStrip (cs : Chars) : Chars :=
  (cs.reverse.dropWhile Char.isWhitespace).reverse

/-- Python `len(line) - len(line.lstrip())`: number of leading whitespace characters. -/
def leadingWsCount (cs : Chars) : Nat :=
  (cs.takeWhile Char.isWhitespace).length

/-- Helper for `pyFind`, carrying the current index. -/
def pyFindAux (pat : Chars) : Chars → Nat → Option Nat
  | cs, i =>
    if pat.isPrefixOf cs then some i
    else
      match cs with
      | [] => none
      | _ :: t => pyFindAux pat t (i + 1)

/-- Python `hay.find(pat)`: index of the first occurrence (`none` for `-1`). -/
def pyFind (hay pat : Chars) : Option Nat :=
  pyFindAux pat hay 0

/-- Python `pat in hay` substring test. -/
def containsSub (hay pat : Chars) : Bool :=
  (pyFind hay pat).isSome

/-- The suffix following the first occurrence of `pat`
(Python `hay.split(pat, 1)[1]`, and the tail used by `re.search`). -/
def afterFirst (pat : Chars) : Chars → Option Chars
  | [] => if pat.isPrefixOf ([] : Chars) then some [] else none
  | c :: cs =>
    if pat.isPrefixOf (c :: cs) then some ((c :: cs).drop pat.length)
    else afterFirst pat cs

/-- Fuel-driven scan of Python `str.replace(pat, rep)` for a nonempty
pattern: replace every non-overlapping occurrence, scanning left to right.
Each step consumes one fuel unit and at least one character, so fuel equal
to the list length (see `pyReplace`) never runs out. -/
def pyReplaceFuel (pat rep : Chars) : Nat → Chars → Chars
  | 0, cs => cs
  | _ + 1, [] => []
  | fuel + 1, c :: cs =>
    if pat ≠ [] ∧ pat.isPrefixOf (c :: cs) then
      rep ++ pyReplaceFuel pat rep fuel (cs.drop (pat.length - 1))
    else
      c :: pyReplaceFuel pat rep fuel cs

/-- Python `str.replace(pat, rep)` for a nonempty pattern.  (The agent only
ever calls it with the pattern `'sorry'`.) -/
def pyReplace (pat rep cs : Chars) : Chars :=
  pyReplaceFuel pat rep cs.length cs

/-- Python `code.split('\n')` over characters. -/
def splitNl : Chars → List Chars
  | [] => [[]]
  | c :: cs =>
    match splitNl cs with
    | [] => [[]]
    | l :: ls => if c = '\n' then [] :: l :: ls else (c :: l) :: ls

/-- Python `'\n'.join(lines)` over characters. -/
def joinNl : List Chars → Chars
  | [] => []
  | [l] => l
  | l :: ls => l ++ '\n' :: joinNl (ls)

/-- Python `re` word character (`\w`), for the ASCII names the agent handles. -/
def isWordChar (c : Char) : Bool :=
  c.isAlphanum || c = '_'

/-- Backtracking search used by the lazy part `.*?:=\s*by` of the `have`
regex: find the first position whose suffix starts with `:=`, followed by
optional whitespace and `by`; return what follows `by`. -/
def matchAssignBy : Chars → Option Chars
  | [] => none
  | c :: cs =>
    (if c = ':' then
      match cs with
      | '=' :: rest =>
        match rest.dropWhile Char.isWhitespace with
        | 'b' :: 'y' :: tail => some tail
        | _ => none
      | _ => none
    else none) <|> matchAssignBy cs

/-- Python `re.match(r'have\s+(\w+)\s*:.*?:=\s*by\s*(.*)', stripped)`:
returns the captured variable name and the (un-stripped) proof text. -/
def parseHave (stripped : Chars) : Option (Chars × Chars) :=
  match stripped with
  | 'h' :: 'a' :: 'v' :: 'e' :: rest =>
    if (rest.takeWhile Char.isWhitespace).length = 0 then none
    else
      let r1 := rest.dropWhile Char.isWhitespace
      let name := r1.takeWhile isWordChar
      if name = [] then none
      else
        match (r1.dropWhile isWordChar).dropWhile Char.isWhitespace with
        | ':' :: r4 =>
          (matchAssignBy r4).map fun tail => (name, tail.dropWhile Char.isWhitespace)
        | _ => none
  | _ => none

/-! ## Data model (`interactive_agent.py` dataclasses) -/

/-- Dataclass `Position`: line/column pair. -/
structure Position where
  line : Nat
  column : Nat
deriving DecidableEq

/-- Dataclass `LeanMessage`: a compiler message at a position. -/
structure LeanMessage where
  severity : String
  message : String
  startPos : Position
  endPos : Position
deriving DecidableEq

/-- Dataclass `ProofGoal`: an open proof obligation at a position. -/
structure ProofGoal where
  goalText : String
  position : Position
  proofStateId : Option Nat
deriving DecidableEq

/-- Dataclass `EditableClause`: a named editable span of the document. -/
structure EditableClause where
  clauseId : String
  startPos : Position
  endPos : Position
  content : String
  clauseType : String
deriving DecidableEq

/-- The fields of the `lean_interact` result object that
`_compile_and_analyze` reads (`response`, `has_sorry`, `proof_state`);
`response = none` models an object without the `response` attribute. -/
structure VerifierResult where
  response : Option String
  hasSorry : Bool
  proofState : Option Nat
deriving DecidableEq

/-- The per-thread session state held in `threading.local()`. -/
structure AgentState where
  currentCode : String
  currentMessages : List LeanMessage
  currentGoals : List ProofGoal
  editableClauses : List (String × EditableClause)
  compilationId : Nat
  threadId : Nat
  sessionId : String
deriving DecidableEq

/-- Fresh thread-local state, as `_get_agent_state` initializes it. -/
def initialState (tid : Nat) (sid : String) : AgentState :=
  { currentCode := ""
    currentMessages := []
    currentGoals := []
    editableClauses := []
    compilationId := 0
    threadId := tid
    sessionId := sid }

/-- Python `dict` insertion: replace in place if the key exists, else append. -/
def dictInsert (l : List (String × EditableClause)) (k : String) (v : EditableClause) :
    List (String × EditableClause) :=
  match l with
  | [] => [(k, v)]
  | (k', v') :: t => if k' = k then (k, v) :: t else (k', v') :: dictInsert t k v

/-- Python `dict` key lookup. -/
def lookupKey (l : List (String × EditableClause)) (k : String) : Option EditableClause :=
  match l with
  | [] => none
  | (k', v') :: t => if k' = k then some v' else lookupKey t k

/-! ## `_identify_editable_clauses` -/

/-- The tactic-keyword prefixes recognized for `tactic` clauses. -/
def tacticPrefixes : List Chars :=
  [("intro ".data), ("exact ".data), ("apply ".data), ("rw ".data), ("simp".data),
   ("trivial".data), ("rfl".data), ("constructor".data), ("cases ".data),
   ("induction ".data), ("unfold ".data), ("left".data), ("right".data),
   ("split".data), ("exfalso".data), ("contradiction".data)]

/-- The loop state of `_identify_editable_clauses`. -/
structure ScanState where
  clauses : List (String × EditableClause)
  clauseId : Nat
  mainStarted : Bool

/-- One iteration of the `_identify_editable_clauses` loop on line `i`. -/
def scanLine (i : Nat) (line : Chars) (s : ScanState) : ScanState :=
  let stripped := pyStrip line
  if stripped = [] || ("--".data).isPrefixOf stripped then s
  else if ("theorem".data).isPrefixOf stripped then
    match pyFind stripped (":= by".data), afterFirst (":= by".data) stripped with
    | some p, some suffix =>
      let byPart := pyStrip suffix
      if byPart ≠ [] then
        let cid := "main_proof_" ++ toString s.clauseId
        { clauses := dictInsert s.clauses cid
            { clauseId := cid, startPos := ⟨i, p + 5⟩, endPos := ⟨i, line.length⟩,
              content := String.mk byPart, clauseType := "main_proof" }
          clauseId := s.clauseId + 1
          mainStarted := true }
      else { s with mainStarted := true }
    | _, _ => s
  else if !s.mainStarted then s
  else if ("have ".data).isPrefixOf stripped then
    match parseHave stripped with
    | some (name, rawProof) =>
      let content := pyStrip rawProof
      let cid := "have_" ++ String.mk name
      { s with
          clauses := dictInsert s.clauses cid
            { clauseId := cid
              startPos := ⟨i, (pyFind line ("by".data)).getD 0 + 3⟩
              endPos := ⟨i, line.length⟩
              content := if content = [] then "sorry" else String.mk content
              clauseType := "have" }
          clauseId := s.clauseId + 1 }
    | none => s
  else if containsSub stripped ("sorry".data) then
    let p := (pyFind line ("sorry".data)).getD 0
    let cid := "sorry_" ++ toString s.clauseId
    { s with
        clauses := dictInsert s.clauses cid
          { clauseId := cid, startPos := ⟨i, p⟩, endPos := ⟨i, p + 5⟩,
            content := "sorry", clauseType := "sorry" }
        clauseId := s.clauseId + 1 }
  else if ("by ".data).isPrefixOf stripped then
    let cid := "tactic_block_" ++ toString s.clauseId
    { s with
        clauses := dictInsert s.clauses cid
          { clauseId := cid
            startPos := ⟨i, (pyFind line ("by".data)).getD 0 + 3⟩
            endPos := ⟨i, line.length⟩
            content := String.mk (pyStrip (stripped.drop 3))
            clauseType := "tactic_block" }
        clauseId := s.clauseId + 1 }
  else if tacticPrefixes.any (fun t => t.isPrefixOf stripped) then
    let cid := "tactic_" ++ toString s.clauseId
    { s with
        clauses := dictInsert s.clauses cid
          { clauseId := cid, startPos := ⟨i, 0⟩, endPos := ⟨i, line.length⟩,
            content := String.mk stripped, clauseType := "tactic" }
        clauseId := s.clauseId + 1 }
  else
    let cid := "proof_line_" ++ toString s.clauseId
    { s with
        clauses := dictInsert s.clauses cid
          { clauseId := cid, startPos := ⟨i, 0⟩, endPos := ⟨i, line.length⟩,
            content := String.mk stripped, clauseType := "proof_line" }
        clauseId := s.clauseId + 1 }

/-- The `_identify_editable_clauses` loop over the enumerated lines. -/
def identifyAux : Nat → List Chars → ScanState → ScanState
  | _, [], s => s
  | i, l :: ls, s => identifyAux (i + 1) ls (scanLine i l s)

/-- Method `_identify_editable_clauses`: rebuild the clause map from scratch from the
current document. -/
def identifyEditableClauses (code : String) : List (String × EditableClause) :=
  (identifyAux 0 (splitNl code.data) { clauses := [], clauseId := 0, mainStarted := false }).clauses

/-! ## `_parse_messages` and `_parse_goals` -/

/-- The info note appended when the raw response is exactly `Success`. -/
def successNote : LeanMessage :=
  ⟨"info", "Compilation successful", ⟨0, 0⟩, ⟨0, 0⟩⟩

/-- The info note appended when no message was extracted. -/
def completedNote : LeanMessage :=
  ⟨"info", "Compilation completed", ⟨0, 0⟩, ⟨0, 0⟩⟩

/-- The lazy capture `(.*?)(?=\n\n|\n\[|$)` of the message regexes: take
characters up to the first `\n\n` or `\n[` (the `$` alternative only differs
by a trailing newline, which the subsequent `strip()` removes). -/
def captureStop : Chars → Chars
  | [] => []
  | c :: cs =>
    if c = '\n' then
      match cs with
      | '\n' :: _ => []
      | '[' :: _ => []
      | _ => c :: captureStop cs
    else c :: captureStop cs

/-- Model of `re.search(r'\[TAG\]\s*(.*?)(?=\n\n|\n\[|$)', response, re.DOTALL)`
followed by `.group(1).strip()`, wrapped into a message of the given
severity; empty list when the tag does not occur. -/
def extractMsg (sev : String) (tag : Chars) (resp : Chars) : List LeanMessage :=
  match afterFirst tag resp with
  | none => []
  | some suffix =>
    [⟨sev, String.mk (pyStrip (captureStop (suffix.dropWhile Char.isWhitespace))),
      ⟨0, 0⟩, ⟨0, 0⟩⟩]

/-- Method `_parse_messages`: derive the message list from the raw verifier response. -/
def parseMessages (r : VerifierResult) : List LeanMessage :=
  let base : List LeanMessage :=
    match r.response with
    | none => []
    | some s =>
      if s.data = [] then []
      else
        extractMsg "error" ("[error]".data) s.data
          ++ extractMsg "warning" ("[warning]".data) s.data
          ++ extractMsg "info" ("[info]".data) s.data
  match r.response with
  | none => base
  | some s =>
    if s.data ≠ [] ∧ pyStrip s.data = ("Success".data) then base ++ [successNote]
    else if base = [] then base ++ [completedNote]
    else base

/-- Method `_parse_goals`: one goal per line of the current document containing
`sorry`, when the response is non-empty. -/
def parseGoals (r : VerifierResult) (code : String) : List ProofGoal :=
  match r.response with
  | none => []
  | some s =>
    if s.data = [] then []
    else
      (splitNl code.data).enum.filterMap fun p =>
        if containsSub p.2 ("sorry".data) then
          some ⟨"Goal at sorry on line " ++ toString (p.1 + 1),
                ⟨p.1, (pyFind p.2 ("sorry".data)).getD 0⟩, r.proofState⟩
        else none

/-! ## `_compile_and_analyze`, `load_theorem` -/

/-- The dictionary `_compile_and_analyze` returns. -/
structure CompileResult where
  success : Bool
  hasErrors : Bool
  hasWarnings : Bool
  hasSorry : Bool
  messages : List LeanMessage
  goals : List ProofGoal
  editableClauses : List String
  proofState : Option Nat
  compilationId : Nat
  rawResponse : Option String
deriving DecidableEq

/-- Method `_compile_and_analyze` given the verifier's result `r` for the submitted
code: bump the counter, re-derive messages/goals/clauses from the *stored*
document, and report success iff no error-severity message was derived. -/
def compileAndAnalyze (r : VerifierResult) (st : AgentState) : CompileResult × AgentState :=
  let cid := st.compilationId + 1
  let msgs := parseMessages r
  let goals := parseGoals r st.currentCode
  let clauses := identifyEditableClauses st.currentCode
  let hasErrors := msgs.any fun m => m.severity == "error"
  (⟨!hasErrors, hasErrors, msgs.any (fun m => m.severity == "warning"), r.hasSorry,
    msgs, goals, clauses.map Prod.fst, r.proofState, cid, r.response⟩,
   { st with
       currentMessages := msgs
       currentGoals := goals
       editableClauses := clauses
       compilationId := cid })

/-- Scan step of `_make_thread_unique_code`: match `theorem\s+(\w+)` at the
head of the character list, returning the captured name and the rest. -/
def matchTheoremDecl (cs : Chars) : Option (Chars × Chars) :=
  if ("theorem".data).isPrefixOf cs then
    let r := cs.drop 7
    if (r.takeWhile Char.isWhitespace).length = 0 then none
    else
      let r1 := r.dropWhile Char.isWhitespace
      let name := r1.takeWhile isWordChar
      if name = [] then none
      else some (name, r1.dropWhile isWordChar)
  else none

/-- Fuel-driven model of
`re.sub(r'theorem\s+(\w+)', replace_theorem_name, code)`. -/
def subTheoremAux (tid : Nat) (sid : String) : Nat → Chars → Chars
  | 0, cs => cs
  | _ + 1, [] => []
  | fuel + 1, c :: cs =>
    match matchTheoremDecl (c :: cs) with
    | some (name, rest) =>
      ("theorem ".data) ++ name ++ ("_t".data) ++ (toString (tid % 10000)).data
        ++ ("_s".data) ++ sid.data ++ subTheoremAux tid sid fuel rest
    | none => c :: subTheoremAux tid sid fuel cs

/-- Method `_make_thread_unique_code`: rename every `theorem <name>` declaration to a
thread/session-unique name before submitting to the verifier.  The stored
document is never rewritten; only the submitted copy is. -/
def makeThreadUniqueCode (code : String) (tid : Nat) (sid : String) : String :=
  String.mk (subTheoremAux tid sid (code.data.length + 1) code.data)

/-- Method `load_theorem`: store the document as-is, submit the uniquified copy to
the verifier `V`, and analyze the result. -/
def loadTheorem (V : String → VerifierResult) (st : AgentState) (code : String) :
    CompileResult × AgentState :=
  let st1 := { st with currentCode := code }
  compileAndAnalyze (V (makeThreadUniqueCode code st.threadId st.sessionId)) st1

/-! ## `edit_clause` -/

/-- The category-specific line-replacement rules of `edit_clause`. -/
def applyEditRule (c : EditableClause) (line : Chars) (newContent : Chars) : Chars :=
  if c.clauseType = "sorry" then
    pyReplace ("sorry".data) newContent line
  else if c.clauseType = "have" then
    match pyFind line ("by".data) with
    | some p => line.take (p + 2) ++ ' ' :: newContent
    | none => line
  else if c.clauseType = "main_proof" then
    match pyFind line (":= by".data) with
    | some p => line.take (p + 5) ++ ' ' :: newContent
    | none => line
  else if c.clauseType = "tactic_block" then
    match pyFind line ("by".data) with
    | some p => line.take (p + 2) ++ ' ' :: newContent
    | none => line
  else if c.clauseType = "tactic" ∨ c.clauseType = "proof_line" then
    List.replicate (leadingWsCount line) ' ' ++ newContent
  else
    line.take c.startPos.column ++ newContent

/-- The fields of the dictionary `edit_clause` returns on success. -/
structure EditSuccess where
  clauseId : String
  clauseType : String
  oldContent : String
  newContent : String
  compilationResult : CompileResult
  updatedCode : String
  editSuccessful : Bool
deriving DecidableEq

/-- Possible outcomes of `edit_clause`: the `Clause not found` error
dictionary, a Python `IndexError` on `lines[line_idx]` (out-of-range line
index), or the success dictionary. -/
inductive EditOutcome where
  | clauseNotFound (clauseId : String)
  | indexFault
  | editOk (res : EditSuccess)
deriving DecidableEq

/-- Method `edit_clause`: reject unknown ids; otherwise splice the new text into the
owning line by the category rule, store the mutated document, recompile, and
report the edit as applied. -/
def editClause (V : String → VerifierResult) (st : AgentState) (cid : String)
    (newContent : String) : EditOutcome × AgentState :=
  match lookupKey st.editableClauses cid with
  | none => (.clauseNotFound cid, st)
  | some c =>
    let lines := splitNl st.currentCode.data
    match lines.get? c.startPos.line with
    | none => (.indexFault, st)
    | some line =>
      let newLine := applyEditRule c line newContent.data
      let newCode := String.mk (joinNl (lines.set c.startPos.line newLine))
      let st2 := { st with currentCode := newCode }
      let res := compileAndAnalyze (V (makeThreadUniqueCode newCode st.threadId st.sessionId)) st2
      (.editOk
        { clauseId := cid
          clauseType := c.clauseType
          oldContent := c.content
          newContent := newContent
          compilationResult := res.1
          updatedCode := newCode
          editSuccessful := true },
       res.2)

/-! ## `add_proof_structure`, `get_interactive_panel` -/

/-- The per-line indentation rule of `add_proof_structure`, joined with
newlines; empty lines are skipped. -/
def indentStructureLines (ls : List String) : String :=
  String.mk (joinNl ((ls.filterMap fun l =>
    if pyStrip l.data = [] then none
    else if ("  ".data).isPrefixOf l.data then some (pyRStrip l.data)
    else some (("  ".data) ++ pyStrip l.data))))

/-- Outcome of `add_proof_structure`: the `No main proof clause found` error
dictionary, or the delegated `edit_clause` outcome. -/
inductive StructureOutcome where
  | noEditableTarget
  | edited (res : EditOutcome)
deriving DecidableEq

/-- The clause ids `add_proof_structure` may target, in scan order. -/
def structureTargets (st : AgentState) : List String :=
  (st.editableClauses.map Prod.fst).filter fun k =>
    ("main_proof_".data).isPrefixOf k.data || ("sorry_".data).isPrefixOf k.data

/-- Method `add_proof_structure`: indent and join the given lines, then edit the
first clause whose id starts with `main_proof_` or `sorry_`. -/
def addProofStructure (V : String → VerifierResult) (st : AgentState)
    (ls : List String) : StructureOutcome × AgentState :=
  match structureTargets st with
  | [] => (.noEditableTarget, st)
  | t :: _ =>
    let res := editClause V st t (indentStructureLines ls)
    (.edited res.1, res.2)

/-- Python `str(LeanMessage)`. -/
def msgToString (m : LeanMessage) : String :=
  "[" ++ m.severity ++ "] " ++ m.message ++ " at line " ++ toString (m.startPos.line + 1)

/-- Python `str(ProofGoal)`. -/
def goalToString (g : ProofGoal) : String :=
  "Goal at line " ++ toString (g.position.line + 1) ++ ": "
    ++ String.mk (g.goalText.data.take 100) ++ "..."

/-- The read-only snapshot `get_interactive_panel` returns. -/
structure Panel where
  currentCode : String
  messages : List String
  goals : List String
  editableClauses : List (String × String)
  compilationId : Nat
deriving DecidableEq

/-- Method `get_interactive_panel`: a pure projection of the session state; the
Python body only reads the thread-local fields. -/
def getInteractivePanel (st : AgentState) : Panel :=
  { currentCode := st.currentCode
    messages := st.currentMessages.map msgToString
    goals := st.currentGoals.map goalToString
    editableClauses := st.editableClauses.map fun p => (p.1, p.2.clauseType ++ ": " ++ p.2.content)
    compilationId := st.compilationId }

/-! ## The external verifier -/

/-- Modelled from the spec: the external `LeanProver.run_command` (module
`nemo_skills/code_execution/lean4/prover.py`, which is not among the
sources; only its caller `interactive_agent.py` is).  Per the spec's failure
model, verification calls "may time out or return malformed output; these
surface as a message of severity `error` with diagnostic text rather than
raising", so a timeout or unrecognized-output outcome yields a result whose
response carries an `[error]`-tagged diagnostic. -/
inductive VerifierOutcome where
  | normal (response : Option String) (hasSorry : Bool) (proofState : Option Nat)
  | timeout (diag : String)
  | malformed (diag : String)

/-- Modelled from the spec: the result object `run_command` hands back to
`_compile_and_analyze` for each outcome (see `VerifierOutcome`). -/
def runCommand : VerifierOutcome → VerifierResult
  | .normal resp hs ps => ⟨resp, hs, ps⟩
  | .timeout diag =>
    ⟨some (String.mk (("[error] verification timed out: ".data) ++ diag.data)), false, none⟩
  | .malformed diag =>
    ⟨some (String.mk (("[error] unrecognized verifier output: ".data) ++ diag.data)), false, none⟩

/-- A verifier stub whose response is always the bare `Success` string. -/
def stubVerifier : String → VerifierResult := fun _ => ⟨some "Success", false, none⟩

/-- The session invariant: the clause map is exactly the one derived from the
current document (every `load`/`edit` rebuilds it this way). -/
def ClausesWellFormed (st : AgentState) : Prop :=
  st.editableClauses = identifyEditableClauses st.currentCode

instance (st : AgentState) : Decidable (ClausesWellFormed st) := by
  unfold ClausesWellFormed; infer_instance

/-! ## Concrete fixtures used by the claim-level theorems -/

/-- A verifier stub that reports an error-severity diagnostic. -/
def failVerifier : String → VerifierResult := fun _ => ⟨some "[error] boom", false, none⟩

/-- A proof whose second line contains the placeholder `sorry` twice. -/
def sorryDoc : String := "theorem t : True := by\n  sorry; sorry"

/-- Session state after loading `sorryDoc`. -/
def sorryDocState : AgentState := (loadTheorem stubVerifier (initialState 0 "s") sorryDoc).2

/-- The one-line inline-`sorry` theorem from the spec's worked example. -/
def inlineSorryDoc : String := "theorem t (A B : Prop) : A ∧ B → B ∧ A := by sorry"

/-- Session state after loading `inlineSorryDoc`. -/
def inlineSorryState : AgentState := (loadTheorem stubVerifier (initialState 0 "s") inlineSorryDoc).2

/-- The document that makes a `have` clause record a start column one past
the end of its line (`line.find('by') + 3` with `by` at the line's end). -/
def trailingByDoc : String := "theorem t : True := by trivial\nhave h : True := by"

/-- Session state after loading `trailingByDoc`. -/
def trailingByState : AgentState := (loadTheorem stubVerifier (initialState 0 "s") trailingByDoc).2

/-- The replacement rule exactly as the claim words it for category `sorry`:
only the recorded placeholder span is replaced by the new text (comparison
definition taken from the spec's words, for refutation). -/
def sorrySpanSpecRule (line : Chars) (startCol endCol : Nat) (nt : Chars) : Chars :=
  line.take startCol ++ nt ++ line.drop endCol

/-- A theorem whose inline main proof is separated from `:= by` by two
spaces; the derived clause content is the *stripped* text `trivial`. -/
def sameTextDoc : String := "theorem t : True := by  trivial"

/-- Session state after loading `sameTextDoc`. -/
def sameTextState : AgentState := (loadTheorem stubVerifier (initialState 0 "s") sameTextDoc).2

/-! ## Helper lemmas -/

theorem splitNl_ne_nil (cs : Chars) : splitNl cs ≠ [] := by
  cases cs with
  | nil => simp [splitNl]
  | cons c cs =>
    simp only [splitNl]
    cases splitNl cs with
    | nil => simp
    | cons l ls =>
      by_cases h : c = '\n' <;> simp [h]

theorem joinNl_splitNl (cs : Chars) : joinNl (splitNl cs) = cs := by
  induction cs with
  | nil => rfl
  | cons c cs ih =>
    simp only [splitNl]
    rcases hs : splitNl cs with _ | ⟨l, ls⟩
    · exact absurd hs (splitNl_ne_nil cs)
    · rw [hs] at ih
      by_cases h : c = '\n'
      · subst h
        simp only [if_pos rfl, joinNl]
        cases ls with
        | nil => simpa [joinNl] using ih
        | cons l' ls' => simpa [joinNl] using ih
      · simp only [if_neg h]
        cases ls with
        | nil => simpa [joinNl] using ih
        | cons l' ls' => simpa [joinNl] using ih


theorem pyReplaceFuel_self (pat : Chars) :
    ∀ (fuel : Nat) (cs : Chars), pyReplaceFuel pat pat fuel cs = cs := by
  intro fuel
  induction fuel with
  | zero => intro cs; rfl
  | succ fuel ih =>
    intro cs
    match cs with
    | [] => rfl
    | c :: cs' =>
      rw [pyReplaceFuel]
      by_cases h : pat ≠ [] ∧ pat.isPrefixOf (c :: cs')
      · rw [if_pos h]
        obtain ⟨p, ps, rfl⟩ := List.exists_cons_of_ne_nil h.1
        have hpre : p :: ps <+: c :: cs' := List.isPrefixOf_iff_prefix.mp h.2
        have heq := List.prefix_iff_eq_append.mp hpre
        rw [ih]
        simpa using heq
      · rw [if_neg h, ih]

theorem pyReplace_self (pat : Chars) (cs : Chars) : pyReplace pat pat cs = cs :=
  pyReplaceFuel_self pat cs.length cs

theorem set_get_self {α : Type} :
    ∀ (l : List α) (n : Nat) (a : α), l.get? n = some a → l.set n a = l
  | [], _, _, h => by simp at h
  | x :: t, 0, a, h => by
    simp only [List.get?] at h
    obtain rfl := Option.some.inj h
    simp [List.set]
  | x :: t, n + 1, a, h => by
    simp only [List.get?] at h
    simp [List.set, set_get_self t n a h]

theorem lookupKey_mem :
    ∀ {l : List (String × EditableClause)} {k : String} {v : EditableClause},
      lookupKey l k = some v → (k, v) ∈ l := by
  intro l
  induction l with
  | nil => intro k v h; simp [lookupKey] at h
  | cons p t ih =>
    intro k v h
    obtain ⟨k', v'⟩ := p
    rw [lookupKey] at h
    by_cases hk : k' = k
    · rw [if_pos hk] at h
      subst hk
      obtain rfl := Option.some.inj h
      simp
    · rw [if_neg hk] at h
      exact List.mem_cons_of_mem _ (ih h)

theorem dictInsert_forall {P : String × EditableClause → Prop} :
    ∀ {l : List (String × EditableClause)} {k : String} {v : EditableClause},
      (∀ p ∈ l, P p) → P (k, v) → ∀ p ∈ dictInsert l k v, P p := by
  intro l
  induction l with
  | nil => intro k v _ hkv p hp; simp [dictInsert] at hp; subst hp; exact hkv
  | cons q t ih =>
    intro k v hl hkv p hp
    obtain ⟨k', v'⟩ := q
    rw [dictInsert] at hp
    by_cases hk : k' = k
    · rw [if_pos hk] at hp
      rcases List.mem_cons.mp hp with h | h
      · subst h; exact hkv
      · exact hl _ (List.mem_cons_of_mem _ h)
    · rw [if_neg hk] at hp
      rcases List.mem_cons.mp hp with h | h
      · subst h; exact hl _ (List.mem_cons_self _ _)
      · exact ih (fun q hq => hl _ (List.mem_cons_of_mem _ hq)) hkv _ h

theorem scanLine_clauses_cases (i : Nat) (line : Chars) (s : ScanState) :
    (scanLine i line s).clauses = s.clauses ∨
    ∃ k c, c.startPos.line = i ∧ (scanLine i line s).clauses = dictInsert s.clauses k c := by
  simp only [scanLine]
  repeat' split
  all_goals first
    | (left; rfl)
    | (right; exact ⟨_, _, rfl, rfl⟩)

theorem scanLine_line_le {i : Nat} {line : Chars} {s : ScanState}
    (hs : ∀ p ∈ s.clauses, p.2.startPos.line + 1 ≤ i) :
    ∀ p ∈ (scanLine i line s).clauses, p.2.startPos.line + 1 ≤ i + 1 := by
  have hs' : ∀ p ∈ s.clauses, p.2.startPos.line + 1 ≤ i + 1 :=
    fun p hp => Nat.le_succ_of_le (hs p hp)
  rcases scanLine_clauses_cases i line s with h | ⟨k, c, hc, h⟩
  · rw [h]; exact hs'
  · rw [h]
    exact dictInsert_forall hs' (by simp [hc])

theorem identifyAux_line_le :
    ∀ (ls : List Chars) (i : Nat) (s : ScanState),
      (∀ p ∈ s.clauses, p.2.startPos.line + 1 ≤ i) →
      ∀ p ∈ (identifyAux i ls s).clauses, p.2.startPos.line + 1 ≤ i + ls.length := by
  intro ls
  induction ls with
  | nil => intro i s hs p hp; simpa using hs p hp
  | cons l t ih =>
    intro i s hs p hp
    have := ih (i + 1) (scanLine i l s) (scanLine_line_le hs) p hp
    simpa [Nat.add_comm, Nat.add_left_comm] using this

theorem identify_line_lt (code : String) :
    ∀ p ∈ identifyEditableClauses code, p.2.startPos.line < (splitNl code.data).length := by
  intro p hp
  have := identifyAux_line_le (splitNl code.data) 0
    { clauses := [], clauseId := 0, mainStarted := false } (by simp) p hp
  omega

/-! ## Claim theorems -/

/-- C1: a `CompileResult` (as produced by `load_theorem` and by the
recompilation inside `edit_clause`, both of which call
`_compile_and_analyze`) has `success = true` iff the derived message list
has no error-severity message; warnings and infos never block success. -/
theorem compile_success_iff_no_error_message (r : VerifierResult) (st : AgentState)
    (V : String → VerifierResult) (code : String) :
    ((compileAndAnalyze r st).1.success = true ↔
      ∀ m ∈ (compileAndAnalyze r st).1.messages, m.severity ≠ "error") ∧
    ((loadTheorem V st code).1.success = true ↔
      ∀ m ∈ (loadTheorem V st code).1.messages, m.severity ≠ "error") := by
  constructor
  · simp [compileAndAnalyze, List.any_eq_false]
  · simp [loadTheorem, compileAndAnalyze, List.any_eq_false]

/-- C2: `edit_clause` with an id absent from the clause map returns the
`Clause not found` error and leaves the whole session state — document,
clause map, messages, goals, compilation counter — untouched; the verifier
argument `V` does not occur in the result, so no verifier call is made. -/
theorem edit_unknown_clause_fails_and_preserves_state
    (V : String → VerifierResult) (st : AgentState) (cid nt : String)
    (h : lookupKey st.editableClauses cid = none) :
    editClause V st cid nt = (.clauseNotFound cid, st) := by
  unfold editClause
  rw [h]

/-- Witness for C2 at a fresh session and an unknown id. -/
theorem edit_unknown_clause_fails_and_preserves_state_witness :
    lookupKey (initialState 0 "s").editableClauses "nope" = none ∧
    editClause stubVerifier (initialState 0 "s") "nope" "x" =
      (.clauseNotFound "nope", initialState 0 "s") :=
  ⟨rfl, edit_unknown_clause_fails_and_preserves_state stubVerifier (initialState 0 "s")
    "nope" "x" rfl⟩

/-- C6: right after `load_theorem doc`, the stored document (and hence the
panel's `current_code`) is `doc` itself — the thread-uniqueness rewriting is
applied only to the copy submitted to the verifier.  `get_interactive_panel`
is a pure projection of the state (the Python body only reads fields), so
calling it has no effect on the session. -/
theorem panel_after_load_shows_original_document
    (V : String → VerifierResult) (st : AgentState) (doc : String) :
    (loadTheorem V st doc).2.currentCode = doc ∧
    (getInteractivePanel (loadTheorem V st doc).2).currentCode = doc ∧
    (getInteractivePanel (loadTheorem V st doc).2).compilationId =
      (loadTheorem V st doc).2.compilationId :=
  ⟨rfl, rfl, rfl⟩

/-- C9: `add_proof_structure` fails (returning the `No main proof clause`
error with the state unchanged) exactly when no clause id starts with
`main_proof_` or `sorry_`; otherwise it delegates to `edit_clause` on the
first such id in scan order, with the indented join of the supplied lines. -/
theorem add_structure_targets_first_main_or_sorry_clause
    (V : String → VerifierResult) (st : AgentState) (ls : List String) :
    (structureTargets st = [] → addProofStructure V st ls = (.noEditableTarget, st)) ∧
    (∀ t ts, structureTargets st = t :: ts →
      addProofStructure V st ls =
        (.edited (editClause V st t (indentStructureLines ls)).1,
         (editClause V st t (indentStructureLines ls)).2)) ∧
    ((addProofStructure V st ls).1 = .noEditableTarget ↔
      ∀ k ∈ st.editableClauses.map Prod.fst,
        ¬(("main_proof_".data).isPrefixOf k.data || ("sorry_".data).isPrefixOf k.data) = true) := by
  refine ⟨?_, ?_, ?_⟩
  · intro h
    unfold addProofStructure
    rw [h]
  · intro t ts h
    unfold addProofStructure
    rw [h]
  · unfold addProofStructure
    rcases hf : structureTargets st with _ | ⟨t, ts⟩
    · simp only [hf]
      unfold structureTargets at hf
      simpa using List.filter_eq_nil_iff.mp hf
    · simp only [hf]
      constructor
      · intro h
        exact absurd h (by simp)
      · intro h
        have : structureTargets st = [] := by
          unfold structureTargets
          exact List.filter_eq_nil_iff.mpr (by simpa using h)
        rw [hf] at this
        exact absurd this (by simp)

/-- C10: for any id in the clause map (in a well-formed session), edit always
reports `edit_successful = true` with the old/new clause text and the mutated
document, for every verifier behavior `V` — the edit-applied flag does not
depend on whether the embedded recompilation succeeds. -/
theorem edit_known_clause_reports_edit_success
    (V : String → VerifierResult) (st : AgentState) (cid nt : String)
    (c : EditableClause) (hwf : ClausesWellFormed st)
    (h : lookupKey st.editableClauses cid = some c) :
    ∃ res, (editClause V st cid nt).1 = .editOk res ∧
      res.editSuccessful = true ∧ res.oldContent = c.content ∧ res.newContent = nt ∧
      res.updatedCode = (editClause V st cid nt).2.currentCode := by
  have hmem := lookupKey_mem h
  rw [hwf] at hmem
  have hlt : c.startPos.line < (splitNl st.currentCode.data).length :=
    identify_line_lt st.currentCode _ hmem
  simp only [editClause, h, List.get?_eq_get hlt]
  exact ⟨_, rfl, rfl, rfl, rfl, rfl⟩

/-- Witness for C10: a known clause, a verifier that reports an error (so the
recompilation fails), and still `edit_successful = true`. -/
theorem edit_known_clause_reports_edit_success_witness :
    ClausesWellFormed sorryDocState ∧
    lookupKey sorryDocState.editableClauses "sorry_0" =
      some ⟨"sorry_0", ⟨1, 2⟩, ⟨1, 7⟩, "sorry", "sorry"⟩ ∧
    ∃ res, (editClause failVerifier sorryDocState "sorry_0" "trivial").1 = .editOk res ∧
      res.editSuccessful = true ∧
      res.oldContent = EditableClause.content ⟨"sorry_0", ⟨1, 2⟩, ⟨1, 7⟩, "sorry", "sorry"⟩ ∧
      res.newContent = "trivial" ∧
      res.updatedCode = (editClause failVerifier sorryDocState "sorry_0" "trivial").2.currentCode :=
  ⟨by decide, by decide,
    edit_known_clause_reports_edit_success failVerifier sorryDocState "sorry_0" "trivial"
      ⟨"sorry_0", ⟨1, 2⟩, ⟨1, 7⟩, "sorry", "sorry"⟩ (by decide) (by decide)⟩

/-- C8 counterexample: after loading `trailingByDoc`, clause `have_h` records
start column 20 on line 1, but that line has only 19 characters — the column
bound lies outside the line, contradicting the claim's span condition. -/
theorem have_clause_column_exceeds_line_counterexample :
    (lookupKey trailingByState.editableClauses "have_h").map
        (fun c => (c.clauseType, c.startPos.line, c.startPos.column)) =
      some ("have", 1, 20) ∧
    ((splitNl trailingByState.currentCode.data).get? 1).map List.length = some 19 ∧
    ¬(20 ≤ 19) := by decide

/-- C8 as amended: in a well-formed session every clause's line index is a
valid index into the current document's lines, and `edit_clause` with any id
never hits the out-of-range fault on `lines[line_idx]` (column bounds,
however, may exceed the owning line, as the counterexample shows). -/
theorem clause_lines_valid_and_edit_never_faults
    (V : String → VerifierResult) (st : AgentState) (cid nt : String)
    (hwf : ClausesWellFormed st) :
    (∀ p ∈ st.editableClauses, p.2.startPos.line < (splitNl st.currentCode.data).length) ∧
    (editClause V st cid nt).1 ≠ EditOutcome.indexFault := by
  constructor
  · intro p hp
    rw [hwf] at hp
    exact identify_line_lt _ _ hp
  · unfold editClause
    cases hlk : lookupKey st.editableClauses cid with
    | none => simp
    | some c =>
      have hmem := lookupKey_mem hlk
      rw [hwf] at hmem
      have hlt : c.startPos.line < (splitNl st.currentCode.data).length :=
        identify_line_lt st.currentCode _ hmem
      simp only [List.get?_eq_get hlt]
      simp

/-- Witness for the amended C8 on the trailing-`by` document itself. -/
theorem clause_lines_valid_and_edit_never_faults_witness :
    ClausesWellFormed trailingByState ∧
    (editClause stubVerifier trailingByState "have_h" "trivial").1 ≠ EditOutcome.indexFault :=
  ⟨by decide,
    (clause_lines_valid_and_edit_never_faults stubVerifier trailingByState "have_h" "trivial"
      (by decide)).2⟩

/-- Evaluation of `afterFirst` at a position where the pattern already matches. -/
theorem afterFirst_at_match {pat cs : Chars} (h : pat.isPrefixOf cs = true) :
    afterFirst pat cs = some (cs.drop pat.length) := by
  cases cs with
  | nil =>
    rw [afterFirst, if_pos h]
    simp
  | cons c t => rw [afterFirst, if_pos h]

/-- If the raw response starts with `[error]`, `_parse_messages` derives an
error-severity message whatever else the response contains. -/
theorem parseMessages_has_error (r : VerifierResult) (s : String)
    (hr : r.response = some s) (hne : s.data ≠ [])
    (h : ("[error]".data).isPrefixOf s.data = true) :
    ∃ m ∈ parseMessages r, m.severity = "error" := by
  unfold parseMessages
  rw [hr]
  refine ⟨⟨"error",
    String.mk (pyStrip (captureStop ((s.data.drop ("[error]".data.length)).dropWhile Char.isWhitespace))),
    ⟨0, 0⟩, ⟨0, 0⟩⟩, ?_, rfl⟩
  have hext : extractMsg "error" ("[error]".data) s.data =
      [⟨"error",
        String.mk (pyStrip (captureStop ((s.data.drop ("[error]".data.length)).dropWhile Char.isWhitespace))),
        ⟨0, 0⟩, ⟨0, 0⟩⟩] := by
    unfold extractMsg
    rw [afterFirst_at_match h]
  simp only [if_neg hne, hext]
  split_ifs with h1 h2 <;> simp

/-- An error-severity message in the derived list forces `success = false`. -/
theorem compileAndAnalyze_success_false_of_error (r : VerifierResult) (st : AgentState)
    (h : ∃ m ∈ parseMessages r, m.severity = "error") :
    (compileAndAnalyze r st).1.success = false := by
  obtain ⟨m, hm, hsev⟩ := h
  simp only [compileAndAnalyze, Bool.not_eq_false', List.any_eq_true]
  exact ⟨m, hm, by simp [hsev]⟩

/-- C5: for a verifier call that times out or returns output the prover layer
cannot interpret (modelled from the spec, see `runCommand`), `load_theorem`
returns normally — in this embedding every operation is a total function and
the out-of-range line access is the only modelled fault, which `load` never
performs — with `success = false`, an error-severity diagnostic message in
the result, and a well-formed session state that supports further
`load`/`edit` calls. -/
theorem load_failure_outcome_surfaces_error_message
    (st : AgentState) (code diag : String) :
    ((loadTheorem (fun _ => runCommand (.timeout diag)) st code).1.success = false ∧
      ∃ m ∈ (loadTheorem (fun _ => runCommand (.timeout diag)) st code).1.messages,
        m.severity = "error") ∧
    ((loadTheorem (fun _ => runCommand (.malformed diag)) st code).1.success = false ∧
      ∃ m ∈ (loadTheorem (fun _ => runCommand (.malformed diag)) st code).1.messages,
        m.severity = "error") ∧
    ClausesWellFormed (loadTheorem (fun _ => runCommand (.timeout diag)) st code).2 ∧
    ClausesWellFormed (loadTheorem (fun _ => runCommand (.malformed diag)) st code).2 := by
  have hpreT : ("[error]".data).isPrefixOf
      (("[error] verification timed out: ".data) ++ diag.data) = true := by
    apply List.isPrefixOf_iff_prefix.mpr
    have : "[error] verification timed out: ".data =
        ("[error]".data) ++ (" verification timed out: ".data) := by decide
    rw [this, List.append_assoc]
    exact List.prefix_append _ _
  have hpreM : ("[error]".data).isPrefixOf
      (("[error] unrecognized verifier output: ".data) ++ diag.data) = true := by
    apply List.isPrefixOf_iff_prefix.mpr
    have : "[error] unrecognized verifier output: ".data =
        ("[error]".data) ++ (" unrecognized verifier output: ".data) := by decide
    rw [this, List.append_assoc]
    exact List.prefix_append _ _
  have hneT : (String.mk (("[error] verification timed out: ".data) ++ diag.data)).data ≠ [] := by
    simp
  have hneM : (String.mk (("[error] unrecognized verifier output: ".data) ++ diag.data)).data
      ≠ [] := by simp
  have herrT := parseMessages_has_error (runCommand (.timeout diag)) _ rfl hneT hpreT
  have herrM := parseMessages_has_error (runCommand (.malformed diag)) _ rfl hneM hpreM
  refine ⟨⟨?_, ?_⟩, ⟨?_, ?_⟩, rfl, rfl⟩
  · exact compileAndAnalyze_success_false_of_error _ _ herrT
  · exact herrT
  · exact compileAndAnalyze_success_false_of_error _ _ herrM
  · exact herrM

/-- C3 counterexample: loading the inline-`sorry` one-liner yields exactly one
clause, but its category is `main_proof` (the `:= by`-on-the-theorem-line
branch of `_identify_editable_clauses`), not `sorry` as claimed. -/
theorem load_inline_sorry_clause_category_counterexample :
    inlineSorryState.editableClauses.map (fun p => (p.1, p.2.clauseType)) =
      [("main_proof_0", "main_proof")] ∧
    ("main_proof" : String) ≠ "sorry" := by decide

/-- C3 as amended: loading the inline-`sorry` one-liner yields exactly one
clause, of category `main_proof` with content `sorry`; after editing it to
the completing tactic script, the rebuilt clause map again has exactly that
one `main_proof` clause, now with the new content, and no clause of category
`sorry` (nor any clause whose content mentions `sorry`). -/
theorem load_inline_sorry_then_edit_removes_placeholder :
    inlineSorryState.editableClauses.map (fun p => (p.1, p.2.clauseType, p.2.content)) =
      [("main_proof_0", "main_proof", "sorry")] ∧
    (editClause stubVerifier inlineSorryState "main_proof_0"
        "intro h; exact ⟨h.right, h.left⟩").2.currentCode =
      "theorem t (A B : Prop) : A ∧ B → B ∧ A := by intro h; exact ⟨h.right, h.left⟩" ∧
    (editClause stubVerifier inlineSorryState "main_proof_0"
        "intro h; exact ⟨h.right, h.left⟩").2.editableClauses.map
        (fun p => (p.1, p.2.clauseType, p.2.content)) =
      [("main_proof_0", "main_proof", "intro h; exact ⟨h.right, h.left⟩")] ∧
    ((editClause stubVerifier inlineSorryState "main_proof_0"
        "intro h; exact ⟨h.right, h.left⟩").2.editableClauses.all
        (fun p => p.2.clauseType != "sorry")) = true := by decide

/-- C4 counterexample: clause `sorry_0` of `sorryDoc` records the span
(1,2)-(1,7), yet editing it with `trivial` rewrites the owning line to
`  trivial; trivial` — the second occurrence of `sorry` is replaced too
(Python `str.replace` replaces all occurrences), while the claim's
span-replacement rule would give `  trivial; sorry`. -/
theorem edit_sorry_replaces_all_occurrences_counterexample :
    lookupKey sorryDocState.editableClauses "sorry_0" =
      some ⟨"sorry_0", ⟨1, 2⟩, ⟨1, 7⟩, "sorry", "sorry"⟩ ∧
    (editClause stubVerifier sorryDocState "sorry_0" "trivial").2.currentCode =
      "theorem t : True := by\n  trivial; trivial" ∧
    String.mk (sorrySpanSpecRule ("  sorry; sorry".data) 2 7 ("trivial".data)) =
      "  trivial; sorry" ∧
    ("theorem t : True := by\n  trivial; trivial" : String) ≠
      "theorem t : True := by\n  trivial; sorry" := by decide

/-- C4 as amended: a successful edit rewrites only the clause's owning line
(all other lines of the document are untouched), by the category rule the
code actually implements — for category `sorry`, *every* occurrence of the
literal `sorry` in the owning line is replaced by the new text (not just the
recorded span); for `have`, everything after the first occurrence of `by` is
replaced by a space and the new text; for `tactic`/`proof_line`, the whole
line is replaced with the leading whitespace re-created as spaces. -/
theorem edit_rewrites_only_owning_line
    (V : String → VerifierResult) (st : AgentState) (cid nt : String)
    (c : EditableClause) (line : Chars)
    (h : lookupKey st.editableClauses cid = some c)
    (hline : (splitNl st.currentCode.data).get? c.startPos.line = some line) :
    (editClause V st cid nt).2.currentCode.data =
      joinNl ((splitNl st.currentCode.data).set c.startPos.line
        (applyEditRule c line nt.data)) ∧
    (∀ j, j ≠ c.startPos.line →
      ((splitNl st.currentCode.data).set c.startPos.line
        (applyEditRule c line nt.data)).get? j =
        (splitNl st.currentCode.data).get? j) ∧
    (c.clauseType = "sorry" →
      applyEditRule c line nt.data = pyReplace ("sorry".data) nt.data line) ∧
    (c.clauseType = "tactic" ∨ c.clauseType = "proof_line" →
      applyEditRule c line nt.data = List.replicate (leadingWsCount line) ' ' ++ nt.data) ∧
    (c.clauseType = "have" → ∀ p, pyFind line ("by".data) = some p →
      applyEditRule c line nt.data = line.take (p + 2) ++ ' ' :: nt.data) := by
  refine ⟨?_, ?_, ?_, ?_, ?_⟩
  · simp only [editClause, h, hline]
    rfl
  · intro j hj
    exact List.get?_set_ne _ _ (fun hc => hj hc.symm)
  · intro hty
    simp [applyEditRule, hty]
  · rintro (hty | hty) <;> simp [applyEditRule, hty]
  · intro hty p hp
    simp [applyEditRule, hty, hp]

/-- Witness for the amended C4 on `sorryDoc`'s clause `sorry_0`. -/
theorem edit_rewrites_only_owning_line_witness :
    lookupKey sorryDocState.editableClauses "sorry_0" =
      some ⟨"sorry_0", ⟨1, 2⟩, ⟨1, 7⟩, "sorry", "sorry"⟩ ∧
    (splitNl sorryDocState.currentCode.data).get? 1 = some ("  sorry; sorry".data) ∧
    (editClause stubVerifier sorryDocState "sorry_0" "trivial").2.currentCode.data =
      joinNl ((splitNl sorryDocState.currentCode.data).set 1
        (applyEditRule ⟨"sorry_0", ⟨1, 2⟩, ⟨1, 7⟩, "sorry", "sorry"⟩
          ("  sorry; sorry".data) ("trivial".data))) :=
  ⟨by decide, by decide,
    (edit_rewrites_only_owning_line stubVerifier sorryDocState "sorry_0" "trivial"
      ⟨"sorry_0", ⟨1, 2⟩, ⟨1, 7⟩, "sorry", "sorry"⟩ ("  sorry; sorry".data)
      (by decide) (by decide)).1⟩

/-- C7 counterexample: the clause `main_proof_0` of `sameTextDoc` has current
text `trivial`, but editing it with exactly that text rewrites the document
to `theorem t : True := by trivial` — the edit normalizes the whitespace
after `:= by`, so the document is *not* textually unchanged. -/
theorem edit_same_text_changes_document_counterexample :
    (lookupKey sameTextState.editableClauses "main_proof_0").map EditableClause.content =
      some "trivial" ∧
    (editClause stubVerifier sameTextState "main_proof_0" "trivial").2.currentCode =
      "theorem t : True := by trivial" ∧
    ("theorem t : True := by trivial" : String) ≠ sameTextDoc := by decide

/-- C7 as amended: re-submitting a clause's current text is guaranteed to
leave the document textually unchanged only for clauses of category `sorry`
(whose content is the literal placeholder, so replace-all is the identity);
for the other categories the owning line is rewritten to a normalized form
(single space after the proof introducer, indentation re-created), which can
differ textually from the original line, as the counterexample shows. -/
theorem edit_sorry_clause_same_text_preserves_document
    (V : String → VerifierResult) (st : AgentState) (cid : String)
    (c : EditableClause) (h : lookupKey st.editableClauses cid = some c)
    (hty : c.clauseType = "sorry") (hc : c.content = "sorry") :
    (editClause V st cid c.content).2.currentCode = st.currentCode := by
  unfold editClause
  rw [h]
  cases hline : (splitNl st.currentCode.data).get? c.startPos.line with
  | none => simp only [hline]
  | some line =>
    have hrule : applyEditRule c line c.content.data = line := by
      unfold applyEditRule
      rw [if_pos hty, hc]
      exact pyReplace_self _ _
    simp only [hline, hrule, set_get_self _ _ _ hline, joinNl_splitNl]
    rfl

/-- Witness for the amended C7: editing the standalone `sorry` clause of a
two-line document with its own text leaves the document unchanged. -/
theorem edit_sorry_clause_same_text_preserves_document_witness :
    lookupKey ((loadTheorem stubVerifier (initialState 0 "s")
        "theorem t : True := by\n  sorry").2).editableClauses "sorry_0" =
      some ⟨"sorry_0", ⟨1, 2⟩, ⟨1, 7⟩, "sorry", "sorry"⟩ ∧
    (editClause stubVerifier ((loadTheorem stubVerifier (initialState 0 "s")
        "theorem t : True := by\n  sorry").2) "sorry_0" "sorry").2.currentCode =
      "theorem t : True := by\n  sorry" :=
  ⟨by decide,
    edit_sorry_clause_same_text_preserves_document stubVerifier
      ((loadTheorem stubVerifier (initialState 0 "s") "theorem t : True := by\n  sorry").2)
      "sorry_0" ⟨"sorry_0", ⟨1, 2⟩, ⟨1, 7⟩, "sorry", "sorry"⟩ (by decide) rfl rfl⟩

/-- Witness for C1: a response with only a warning tag still compiles with
`success = true`. -/
theorem compile_success_iff_no_error_message_witness :
    (compileAndAnalyze ⟨some "[warning] unused variable", false, none⟩
      (initialState 0 "s")).1.success = true :=
  (compile_success_iff_no_error_message ⟨some "[warning] unused variable", false, none⟩
    (initialState 0 "s") stubVerifier "").1.mpr (by decide)

/-- Witness for C5 at a concrete session, document, and diagnostic. -/
theorem load_failure_outcome_surfaces_error_message_witness :
    (loadTheorem (fun _ => runCommand (.timeout "600s")) (initialState 0 "s")
      "theorem t : True := by trivial").1.success = false :=
  (load_failure_outcome_surfaces_error_message (initialState 0 "s")
    "theorem t : True := by trivial" "600s").1.1

/-- Witness for C6 at a concrete document. -/
theorem panel_after_load_shows_original_document_witness :
    (getInteractivePanel (loadTheorem stubVerifier (initialState 0 "s") sameTextDoc).2).currentCode
      = sameTextDoc :=
  (panel_after_load_shows_original_document stubVerifier (initialState 0 "s") sameTextDoc).2.1

/-- Witness for C9: a fresh session has no `main_proof_`/`sorry_` clause, so
`add_proof_structure` fails and preserves the state. -/
theorem add_structure_targets_first_main_or_sorry_clause_witness :
    addProofStructure stubVerifier (initialState 0 "s") ["intro h"] =
      (.noEditableTarget, initialState 0 "s") :=
  (add_structure_targets_first_main_or_sorry_clause stubVerifier (initialState 0 "s")
    ["intro h"]).1 (by decide)

end InteractiveLean
